import Mathlib

/-
Verification of the JOSE key-wrap algorithm layer of this repository.

The embedding below follows authlib/jose/rfc7518/_backends/_jwe_alg_cryptography.py.
The cryptographic primitives that file imports from the external cryptography
package (RSA padding encryption, AES key wrap, AES-GCM) are external
collaborators; they are represented as a capability record (Backend) whose
laws are stated as explicit hypotheses, exactly as the specification treats
them (spec section 1: "this core treats them as capability interfaces").
Randomness (os.urandom) is threaded as an explicit entropy argument, as the
specification prescribes in section 5.

Python raises ValueError with a message for every failure in this file; the
specification assigns each message a kind in its error taxonomy (section 7).
The JoseError inductive below uses those kinds.
-/

set_option maxRecDepth 4000

/-- Error taxonomy of spec section 7. Each constructor corresponds to one
kind of ValueError message raised by the source. -/
inductive JoseError
  | invalidKeyFormat
  | incompleteKey
  | unknownAlgorithm
  | keySizeMismatch
  | keyTooSmall
  | missingHeaderField (field : String)
  | unwrapFailure
  deriving DecidableEq, Repr

/-- Header mappings (Python dict of str to str) as association lists. -/
abbrev Headers := List (String × String)

/-- Lookup in a header mapping, mirroring Python headers.get(k). -/
def hget (h : Headers) (k : String) : Option String :=
  (h.find? (fun p => p.1 == k)).map (fun p => p.2)

/- ---------------------------------------------------------------------
base64url without padding, modelled from spec section 6: "All binary fields
are base64url-encoded without padding".  The concrete functions
urlsafe_b64encode and urlsafe_b64decode live in authlib.common.encoding,
which is not part of the provided sources; the implementation below is the
standard base64url alphabet on byte lists.
--------------------------------------------------------------------- -/

/-- The base64url alphabet: sextet value to character. -/
def sextetChar (i : ℕ) : Char :=
  if i < 26 then Char.ofNat (65 + i)
  else if i < 52 then Char.ofNat (97 + (i - 26))
  else if i < 62 then Char.ofNat (48 + (i - 52))
  else if i = 62 then Char.ofNat 45
  else Char.ofNat 95

/-- The base64url alphabet: character back to sextet value. -/
def charSextet (c : Char) : Option ℕ :=
  let v := c.toNat
  if 65 ≤ v ∧ v ≤ 90 then some (v - 65)
  else if 97 ≤ v ∧ v ≤ 122 then some (v - 97 + 26)
  else if 48 ≤ v ∧ v ≤ 57 then some (v - 48 + 52)
  else if v = 45 then some 62
  else if v = 95 then some 63
  else none

/-- Encode a byte list into base64url characters, no padding. -/
def encB64 : List ℕ → List Char
  | [] => []
  | [b1] => [sextetChar (b1 / 4), sextetChar (b1 % 4 * 16)]
  | [b1, b2] => [sextetChar (b1 / 4), sextetChar (b1 % 4 * 16 + b2 / 16),
      sextetChar (b2 % 16 * 4)]
  | b1 :: b2 :: b3 :: rest =>
      sextetChar (b1 / 4) :: sextetChar (b1 % 4 * 16 + b2 / 16) ::
      sextetChar (b2 % 16 * 4 + b3 / 64) :: sextetChar (b3 % 64) :: encB64 rest

/-- Decode base64url characters back into bytes; none on malformed input. -/
def decB64 : List Char → Option (List ℕ)
  | [] => some []
  | [c1, c2] =>
      match charSextet c1, charSextet c2 with
      | some s1, some s2 => some [s1 * 4 + s2 / 16]
      | _, _ => none
  | [c1, c2, c3] =>
      match charSextet c1, charSextet c2, charSextet c3 with
      | some s1, some s2, some s3 =>
          some [s1 * 4 + s2 / 16, s2 % 16 * 16 + s3 / 4]
      | _, _, _ => none
  | c1 :: c2 :: c3 :: c4 :: rest =>
      match charSextet c1, charSextet c2, charSextet c3, charSextet c4,
          decB64 rest with
      | some s1, some s2, some s3, some s4, some bs =>
          some ((s1 * 4 + s2 / 16) :: (s2 % 16 * 16 + s3 / 4) ::
            (s3 % 4 * 64 + s4) :: bs)
      | _, _, _, _, _ => none
  | _ => none

/-- Encoding to a string, as authlib to_native(urlsafe_b64encode(bytes)). -/
def urlsafe_b64encode (bs : List ℕ) : String := String.mk (encB64 bs)

/-- Decoding from a string, as authlib urlsafe_b64decode(to_bytes(s)). -/
def urlsafe_b64decode (s : String) : Option (List ℕ) := decB64 s.data

theorem charSextet_sextetChar : ∀ i : ℕ, i < 64 → charSextet (sextetChar i) = some i := by
  decide

theorem decB64_encB64 : ∀ bs : List ℕ, (∀ b ∈ bs, b < 256) →
    decB64 (encB64 bs) = some bs := by
  intro bs
  induction bs using encB64.induct with
  | case1 => intro _; rfl
  | case2 b1 =>
      intro h
      have hb1 : b1 < 256 := h b1 (by simp)
      simp only [encB64, decB64]
      rw [charSextet_sextetChar _ (by omega), charSextet_sextetChar _ (by omega)]
      simp only [Option.some.injEq, List.cons.injEq, and_true]
      omega
  | case3 b1 b2 =>
      intro h
      have hb1 : b1 < 256 := h b1 (by simp)
      have hb2 : b2 < 256 := h b2 (by simp)
      simp only [encB64, decB64]
      rw [charSextet_sextetChar _ (by omega), charSextet_sextetChar _ (by omega),
        charSextet_sextetChar _ (by omega)]
      simp only [Option.some.injEq, List.cons.injEq, and_true]
      omega
  | case4 b1 b2 b3 rest ih =>
      intro h
      have hb1 : b1 < 256 := h b1 (by simp)
      have hb2 : b2 < 256 := h b2 (by simp)
      have hb3 : b3 < 256 := h b3 (by simp)
      have hrest : ∀ b ∈ rest, b < 256 := fun b hb => h b (by simp [hb])
      simp only [encB64, decB64]
      rw [charSextet_sextetChar _ (by omega), charSextet_sextetChar _ (by omega),
        charSextet_sextetChar _ (by omega), charSextet_sextetChar _ (by omega),
        ih hrest]
      simp only [Option.some.injEq, List.cons.injEq]
      refine ⟨by omega, by omega, by omega, trivial⟩

theorem encB64_ne_nil (b : ℕ) (bs : List ℕ) : encB64 (b :: bs) ≠ [] := by
  match bs with
  | [] => simp [encB64]
  | [b2] => simp [encB64]
  | b2 :: b3 :: t => simp [encB64]

theorem urlsafe_b64encode_injOn (xs ys : List ℕ)
    (hx : ∀ b ∈ xs, b < 256) (hy : ∀ b ∈ ys, b < 256)
    (h : urlsafe_b64encode xs = urlsafe_b64encode ys) : xs = ys := by
  have hdata : encB64 xs = encB64 ys := by
    have := congrArg String.data h
    simpa [urlsafe_b64encode] using this
  have h1 := decB64_encB64 xs hx
  have h2 := decB64_encB64 ys hy
  rw [hdata, h2] at h1
  exact (Option.some.injEq _ _).mp h1.symm

/- ---------------------------------------------------------------------
Key model (spec section 3).  The key classes RSAKey, ECKey, OctKey are
defined in modules not included in the provided sources; the structures
below carry exactly the material the algorithm file uses through
key.get_op_key: the RSA public numbers n, e with key_size the bit length
of n, the optional RSA private numbers, and raw octet bytes.
--------------------------------------------------------------------- -/

/-- RSA private numbers d, p, q and the CRT parameters dp, dq, qi. -/
structure RSAPrivParts where
  d : ℕ
  p : ℕ
  q : ℕ
  dp : ℕ
  dq : ℕ
  qi : ℕ
  deriving DecidableEq, Repr

/-- An RSA key: public numbers n, e, and private numbers when present. -/
structure RSAKey where
  n : ℕ
  e : ℕ
  priv : Option RSAPrivParts
  deriving DecidableEq, Repr

/-- Python op_key.key_size is the bit length of the modulus. -/
def RSAKey.key_size (k : RSAKey) : ℕ := Nat.size k.n

/-- A key presented to an algorithm: tagged union over key families. -/
inductive Key
  | rsa (k : RSAKey)
  | oct (k : List ℕ)
  | ec (crv : String) (x y : ℕ) (d : Option ℕ)
  deriving DecidableEq, Repr

/-- RSA padding schemes used by the three RSA algorithm instances. -/
inductive Pad
  | pkcs1v15
  | oaepSha1
  | oaepSha256
  deriving DecidableEq, Repr

/-- Capability record for the external cryptography primitives used by
the algorithm file: RSA padded encryption and decryption, AES key wrap
and unwrap, and AES-GCM authenticated encryption and decryption.
Decryption returns none where the library raises on failure. -/
structure Backend where
  rsaEncrypt : Pad → ℕ → ℕ → List ℕ → List ℕ
  rsaDecrypt : Pad → RSAKey → List ℕ → Option (List ℕ)
  aesWrap : List ℕ → List ℕ → List ℕ
  aesUnwrap : List ℕ → List ℕ → Option (List ℕ)
  gcmEncrypt : List ℕ → List ℕ → List ℕ → List ℕ × List ℕ
  gcmDecrypt : List ℕ → List ℕ → List ℕ → List ℕ → Option (List ℕ)

/- ---------------------------------------------------------------------
The algorithm classes, one function per method, translated line by line
from _jwe_alg_cryptography.py.
--------------------------------------------------------------------- -/

/-- RSAAlgorithm.wrap: checks op_key.key_size against the class attribute
key_size = 2048, then encrypts the cek under the given padding. -/
def RSAAlgorithm.wrap (b : Backend) (pad : Pad) (cek : List ℕ)
    (headers : Headers) (key : RSAKey) : Except JoseError (List ℕ) :=
  if key.key_size < 2048 then .error .keyTooSmall
  else .ok (b.rsaEncrypt pad key.n key.e cek)

/-- RSAAlgorithm.unwrap: get_op_key(unwrapKey) needs the private numbers;
decryption failure (a ValueError in the source) is the unwrap failure. -/
def RSAAlgorithm.unwrap (b : Backend) (pad : Pad) (ek : List ℕ)
    (headers : Headers) (key : RSAKey) : Except JoseError (List ℕ) :=
  match key.priv with
  | none => .error .invalidKeyFormat
  | some _ =>
      match b.rsaDecrypt pad key ek with
      | some cek => .ok cek
      | none => .error .unwrapFailure

/-- AESAlgorithm.wrap: the _check_key length test, then aes_key_wrap. -/
def AESAlgorithm.wrap (b : Backend) (key_size : ℕ) (cek : List ℕ)
    (headers : Headers) (key : List ℕ) : Except JoseError (List ℕ) :=
  if key.length * 8 ≠ key_size then .error .keySizeMismatch
  else .ok (b.aesWrap key cek)

/-- AESAlgorithm.unwrap: the _check_key length test, then aes_key_unwrap,
whose integrity failure is the unwrap failure. -/
def AESAlgorithm.unwrap (b : Backend) (key_size : ℕ) (ek : List ℕ)
    (headers : Headers) (key : List ℕ) : Except JoseError (List ℕ) :=
  if key.length * 8 ≠ key_size then .error .keySizeMismatch
  else
    match b.aesUnwrap key ek with
    | some cek => .ok cek
    | none => .error .unwrapFailure

/-- Result of AESGCMAlgorithm.wrap: the dict with keys ek and header. -/
structure GCMWrapOut where
  ek : List ℕ
  header : Headers
  deriving DecidableEq, Repr

/-- AESGCMAlgorithm.wrap: the _check_key length test; a 96-bit iv drawn
from the entropy source (os.urandom(96 / 8)); GCM encryption of the cek;
returns the ciphertext with header fields iv and tag, base64url encoded. -/
def AESGCMAlgorithm.wrap (b : Backend) (key_size : ℕ) (cek : List ℕ)
    (headers : Headers) (key : List ℕ) (rand : List ℕ) :
    Except JoseError GCMWrapOut :=
  if key.length * 8 ≠ key_size then .error .keySizeMismatch
  else
    let iv := rand.take 12
    let ct := b.gcmEncrypt key iv cek
    .ok ⟨ct.1, [("iv", urlsafe_b64encode iv), ("tag", urlsafe_b64encode ct.2)]⟩

/-- AESGCMAlgorithm.unwrap: the _check_key length test; the truthiness
tests on headers.get(iv) and headers.get(tag); base64url decoding (a
decoding error is a ValueError in the source, reported as the generic
unwrap failure); then GCM decryption with tag verification. -/
def AESGCMAlgorithm.unwrap (b : Backend) (key_size : ℕ) (ek : List ℕ)
    (headers : Headers) (key : List ℕ) : Except JoseError (List ℕ) :=
  if key.length * 8 ≠ key_size then .error .keySizeMismatch
  else
    match hget headers "iv" with
    | none => .error (.missingHeaderField "iv")
    | some ivs =>
        if ivs = "" then .error (.missingHeaderField "iv")
        else
          match hget headers "tag" with
          | none => .error (.missingHeaderField "tag")
          | some tgs =>
              if tgs = "" then .error (.missingHeaderField "tag")
              else
                match urlsafe_b64decode ivs, urlsafe_b64decode tgs with
                | some iv, some tag =>
                    match b.gcmDecrypt key iv tag ek with
                    | some cek => .ok cek
                    | none => .error .unwrapFailure
                | _, _ => .error .unwrapFailure

/-- ECDHAlgorithm name computation from its init: ECDH-ES when key_size
is absent, otherwise ECDH-ES+A{key_size}KW. -/
def ECDHAlgorithm.name (key_size : Option ℕ) : String :=
  match key_size with
  | none => "ECDH-ES"
  | some ks => "ECDH-ES+A" ++ toString ks ++ "KW"

/-- ECDHAlgorithm.wrap: the body is pass, so the call returns None. -/
def ECDHAlgorithm.wrap (cek : List ℕ) (headers : Headers) (key : Key) :
    Option (List ℕ) := none

/-- ECDHAlgorithm.unwrap: the body is pass, so the call returns None. -/
def ECDHAlgorithm.unwrap (ek : List ℕ) (headers : Headers) (key : Key) :
    Option (List ℕ) := none

/- ---------------------------------------------------------------------
Registry (lines 151 to 166 of the source).  An Alg value records the
constructor arguments of one registered instance; no ECDHAlgorithm
instance appears in the list (its entries are commented out).
--------------------------------------------------------------------- -/

/-- One instance of a registered algorithm class with its init arguments. -/
inductive Alg
  | rsa (name description : String) (pad : Pad)
  | aes (key_size : ℕ)
  | aesgcm (key_size : ℕ)
  deriving DecidableEq, Repr

/-- The name attribute set by each init: RSA keeps the given name, AES
builds A{key_size}KW and AES-GCM builds A{key_size}GCMKW. -/
def Alg.name : Alg → String
  | .rsa nm _ _ => nm
  | .aes ks => "A" ++ toString ks ++ "KW"
  | .aesgcm ks => "A" ++ toString ks ++ "GCMKW"

/-- JWE_ALG_ALGORITHMS exactly as listed in the source. -/
def JWE_ALG_ALGORITHMS : List Alg :=
  [ .rsa "RSA1_5" "RSAES-PKCS1-v1_5" .pkcs1v15,
    .rsa "RSA-OAEP" "RSAES OAEP using default parameters" .oaepSha1,
    .rsa "RSA-OAEP-256" "RSAES OAEP using SHA-256 and MGF1 with SHA-256" .oaepSha256,
    .aes 128,
    .aes 192,
    .aes 256,
    .aesgcm 128,
    .aesgcm 192,
    .aesgcm 256 ]

/-- Modelled from the spec: the registry lookup of section 4.2 (resolve
is performed by the JWE envelope module, which is not among the provided
sources): resolve(name) returns the registered instance and fails with
UnknownAlgorithm on a lookup miss. -/
def resolveAlgorithm (nm : String) : Except JoseError Alg :=
  match JWE_ALG_ALGORITHMS.find? (fun a => a.name == nm) with
  | some a => .ok a
  | none => .error .unknownAlgorithm

/-- The wrap return value as the Python caller sees it: RSA and AES-KW
return the bare ciphertext bytes, AES-GCM returns the ek plus header dict. -/
inductive WrapResult
  | bytes (ek : List ℕ)
  | ekHeader (ek : List ℕ) (header : Headers)
  deriving DecidableEq, Repr

/-- Dispatch of wrap over the registered algorithm variants; a key of the
wrong family fails in get_op_key (InvalidKeyFormat per spec 4.2). -/
def AlgWrap (b : Backend) (a : Alg) (cek : List ℕ) (headers : Headers)
    (key : Key) (rand : List ℕ) : Except JoseError WrapResult :=
  match a, key with
  | .rsa _ _ pad, .rsa k => (RSAAlgorithm.wrap b pad cek headers k).map .bytes
  | .aes ks, .oct o => (AESAlgorithm.wrap b ks cek headers o).map .bytes
  | .aesgcm ks, .oct o =>
      (AESGCMAlgorithm.wrap b ks cek headers o rand).map
        (fun r => .ekHeader r.ek r.header)
  | _, _ => .error .invalidKeyFormat

/-- Dispatch of unwrap over the registered algorithm variants. -/
def AlgUnwrap (b : Backend) (a : Alg) (ek : List ℕ) (headers : Headers)
    (key : Key) : Except JoseError (List ℕ) :=
  match a, key with
  | .rsa _ _ pad, .rsa k => RSAAlgorithm.unwrap b pad ek headers k
  | .aes ks, .oct o => AESAlgorithm.unwrap b ks ek headers o
  | .aesgcm ks, .oct o => AESGCMAlgorithm.unwrap b ks ek headers o
  | _, _ => .error .invalidKeyFormat

/-- Wrap with empty outer headers, then unwrap, forwarding every header
field the wrap call produced. -/
def wrapUnwrap (b : Backend) (a : Alg) (cek : List ℕ) (key : Key)
    (rand : List ℕ) : Except JoseError (List ℕ) :=
  match AlgWrap b a cek [] key rand with
  | .ok (.bytes ek) => AlgUnwrap b a ek [] key
  | .ok (.ekHeader ek h) => AlgUnwrap b a ek h key
  | .error err => .error err

/-- A key valid for an algorithm: the right family, the exact octet
length for the AES families, and for RSA a modulus of at least 2048 bits
together with private material so that unwrap can run. -/
def validKeyFor : Alg → Key → Prop
  | .rsa _ _ _, .rsa k => 2048 ≤ k.key_size ∧ k.priv.isSome
  | .aes ks, .oct o => o.length * 8 = ks
  | .aesgcm ks, .oct o => o.length * 8 = ks
  | _, _ => False

/-- Laws the external primitives satisfy, stated exactly as the spec
treats them (capability interfaces): each decrypt inverts its encrypt,
the GCM tag is a nonempty byte string. -/
def BackendLaws (b : Backend) : Prop :=
  (∀ pad k m, k.priv.isSome →
      b.rsaDecrypt pad k (b.rsaEncrypt pad k.n k.e m) = some m) ∧
  (∀ k m, b.aesUnwrap k (b.aesWrap k m) = some m) ∧
  (∀ k iv m, b.gcmDecrypt k iv (b.gcmEncrypt k iv m).2 (b.gcmEncrypt k iv m).1 = some m) ∧
  (∀ k iv m, (b.gcmEncrypt k iv m).2 ≠ []) ∧
  (∀ k iv m, ∀ t ∈ (b.gcmEncrypt k iv m).2, t < 256)

/-- A miniature concrete backend used to instantiate theorems at
concrete inputs; it satisfies BackendLaws. -/
def toyBackend : Backend where
  rsaEncrypt := fun _ _ _ m => m
  rsaDecrypt := fun _ _ c => some c
  aesWrap := fun _ m => m
  aesUnwrap := fun _ e => some e
  gcmEncrypt := fun _ _ m => (m, [0])
  gcmDecrypt := fun _ _ t c => if t = [0] then some c else none

theorem toyBackend_laws : BackendLaws toyBackend := by
  refine ⟨?_, ?_, ?_, ?_, ?_⟩ <;> intros <;> simp_all [toyBackend]

/- ---------------------------------------------------------------------
RSA key document loading.  The key codec (spec section 4.1) is not among
the provided sources; the definitions below are modelled from the spec
and from the tests of this repository that pin its behavior
(test_rsa_private_key2 and test_invalid_rsa in
src/tests/core/test_jose/test_jwk.py): a document holding d and none of
p, q, dp, dq, qi loads by recovering the prime factors of n and deriving
the CRT parameters, while a document holding some but not all of those
five components is rejected.  Numeric fields are taken as integers (the
base64url layer of the document format is treated separately above).
--------------------------------------------------------------------- -/

/-- An RSA key document: the kty discriminator and the numeric fields. -/
structure RSADoc where
  kty : String
  n : Option ℕ := none
  e : Option ℕ := none
  d : Option ℕ := none
  p : Option ℕ := none
  q : Option ℕ := none
  dp : Option ℕ := none
  dq : Option ℕ := none
  qi : Option ℕ := none
  deriving DecidableEq, Repr

/-- Trial division helper: the least divisor of n that is at least d,
searched with explicit fuel; none when n has no divisor up to its root. -/
def smallestFactorAux (n : ℕ) : ℕ → ℕ → Option ℕ
  | _, 0 => none
  | d, fuel + 1 =>
      if d * d > n then none
      else if n % d = 0 then some d
      else smallestFactorAux n (d + 1) fuel

/-- Modelled from the spec: the external primitive
rsa_recover_prime_factors(n, e, d) of the cryptography package, which
returns the two prime factors of the modulus sorted largest first and
fails when it cannot factor.  The model recovers the factorization of n
directly by trial division; e and d only witness that the document is a
private key. -/
def rsa_recover_prime_factors (n e d : ℕ) : Option (ℕ × ℕ) :=
  match smallestFactorAux n 2 n with
  | some f =>
      if 1 < f ∧ f < n then some (max (n / f) f, min (n / f) f) else none
  | none => none

/-- The CRT exponent for p: d mod (p - 1), as rsa_crt_dmp1. -/
def rsa_crt_dmp1 (d p : ℕ) : ℕ := d % (p - 1)

/-- The CRT exponent for q: d mod (q - 1), as rsa_crt_dmq1. -/
def rsa_crt_dmq1 (d q : ℕ) : ℕ := d % (q - 1)

/-- The CRT coefficient: the inverse of q modulo p, as rsa_crt_iqmp. -/
def rsa_crt_iqmp (p q : ℕ) : ℕ :=
  ((List.range p).find? (fun x => q * x % p = 1)).getD 0

/-- A loaded RSA key: the public or the full private field set. -/
inductive LoadedRSA
  | pub (n e : ℕ)
  | priv (n e d p q dp dq qi : ℕ)
  deriving DecidableEq, Repr

/-- Modelled from the spec: the RSA branch of the key codec load
operation (spec section 4.1, not among the provided sources), with the
branch structure pinned by the tests of this repository: all five CRT
components present means they are used as given; none present means the
primes are recovered from n, e, d and the CRT parameters derived; a
strict subset present is rejected (the spec calls this IncompleteKey). -/
def loadRSA (doc : RSADoc) : Except JoseError LoadedRSA :=
  if doc.kty ≠ "RSA" then .error .invalidKeyFormat
  else
    match doc.n, doc.e with
    | some n, some e =>
        match doc.d with
        | none => .ok (.pub n e)
        | some d =>
            match doc.p, doc.q, doc.dp, doc.dq, doc.qi with
            | some p, some q, some dp, some dq, some qi =>
                .ok (.priv n e d p q dp dq qi)
            | none, none, none, none, none =>
                match rsa_recover_prime_factors n e d with
                | some pq =>
                    .ok (.priv n e d pq.1 pq.2 (rsa_crt_dmp1 d pq.1)
                      (rsa_crt_dmq1 d pq.2) (rsa_crt_iqmp pq.1 pq.2))
                | none => .error .invalidKeyFormat
            | _, _, _, _, _ => .error .incompleteKey
    | _, _ => .error .invalidKeyFormat

deriving instance DecidableEq for Except

/- ---------------------------------------------------------------------
Claim theorems.
--------------------------------------------------------------------- -/

/-- Claim C1, counterexample: loading the RSA document with kty, n, e and
d but neither p nor q does not fail with IncompleteKey; it succeeds and
derives the CRT parameters, exactly as test_rsa_private_key2 of this
repository asserts (shown here on the 2048 = 61 x 53 toy modulus with
public exponent 17 and private exponent 2753). -/
theorem C1_counterexample :
    loadRSA { kty := "RSA", n := some 3233, e := some 17, d := some 2753 } =
      .ok (.priv 3233 17 2753 61 53 53 49 38) ∧
    loadRSA { kty := "RSA", n := some 3233, e := some 17, d := some 2753 } ≠
      .error .incompleteKey := by
  exact ⟨by decide, by decide⟩

/-- Claim C1, amended: loading an RSA document with d and none of p, q,
dp, dq, qi succeeds by recovering the primes from n, e, d and deriving
dp, dq, qi; the load fails with IncompleteKey when d is present with a
strict subset of the five CRT components, such as p without q. -/
theorem C1_amended_load_behavior :
    (∀ (doc : RSADoc) (n e d : ℕ), doc.kty = "RSA" → doc.n = some n →
      doc.e = some e → doc.d = some d → doc.p = none → doc.q = none →
      doc.dp = none → doc.dq = none → doc.qi = none →
      loadRSA doc =
        match rsa_recover_prime_factors n e d with
        | some pq => .ok (.priv n e d pq.1 pq.2 (rsa_crt_dmp1 d pq.1)
            (rsa_crt_dmq1 d pq.2) (rsa_crt_iqmp pq.1 pq.2))
        | none => .error .invalidKeyFormat) ∧
    (∀ (doc : RSADoc) (n e d p : ℕ), doc.kty = "RSA" → doc.n = some n →
      doc.e = some e → doc.d = some d → doc.p = some p → doc.q = none →
      loadRSA doc = .error .incompleteKey) := by
  constructor
  · intro doc n e d hk hn he hd hp hq hdp hdq hqi
    simp [loadRSA, hk, hn, he, hd, hp, hq, hdp, hdq, hqi]
  · intro doc n e d p hk hn he hd hp hq
    cases hdp : doc.dp <;> cases hdq : doc.dq <;> cases hqi : doc.qi <;>
      simp [loadRSA, hk, hn, he, hd, hp, hq, hdp, hdq, hqi]

/-- Claim C1, witness for the amended statement: the partial document
with d and p but no q is rejected as incomplete, and a document with d
alone recovers the factorization 35 = 7 x 5 and the derived parameters. -/
theorem C1_witness :
    loadRSA { kty := "RSA", n := some 3233, e := some 17, d := some 2753, p := some 61 } =
      .error .incompleteKey ∧
    loadRSA { kty := "RSA", n := some 35, e := some 5, d := some 5 } =
      .ok (.priv 35 5 5 7 5 5 1 3) := by
  refine ⟨C1_amended_load_behavior.2 _ 3233 17 2753 61 rfl rfl rfl rfl rfl rfl, ?_⟩
  exact (C1_amended_load_behavior.1 _ 35 5 5 rfl rfl rfl rfl rfl rfl rfl rfl rfl).trans
    (by decide)

/-- Claim C3: RSA wrap rejects every key whose modulus bit length is
under 2048 with KeyTooSmall, for every padding variant, every cek and
every header mapping, and otherwise always proceeds to encrypt; the
check has no other outcome, so it is never skipped or downgraded. -/
theorem C3_rsa_wrap_min_key_size (b : Backend) (pad : Pad) (cek : List ℕ)
    (headers : Headers) (key : RSAKey) :
    (key.key_size < 2048 →
      RSAAlgorithm.wrap b pad cek headers key = .error .keyTooSmall) ∧
    (2048 ≤ key.key_size →
      RSAAlgorithm.wrap b pad cek headers key =
        .ok (b.rsaEncrypt pad key.n key.e cek)) := by
  constructor
  · intro h
    simp [RSAAlgorithm.wrap, h]
  · intro h
    rw [RSAAlgorithm.wrap, if_neg (by omega)]

/-- Claim C3, witness: a 12-bit modulus is rejected with KeyTooSmall and
a 2048-bit modulus is encrypted. -/
theorem C3_witness :
    RSAAlgorithm.wrap toyBackend .pkcs1v15 [1, 2] [] ⟨3233, 17, none⟩ =
      .error .keyTooSmall ∧
    RSAAlgorithm.wrap toyBackend .pkcs1v15 [1, 2] [] ⟨2 ^ 2047, 65537, none⟩ =
      .ok [1, 2] := by
  constructor
  · refine (C3_rsa_wrap_min_key_size toyBackend .pkcs1v15 [1, 2] [] ⟨3233, 17, none⟩).1 ?_
    have h12 : Nat.size 3233 ≤ 12 := Nat.size_le.mpr (by norm_num)
    simp only [RSAKey.key_size]
    omega
  · have h := (C3_rsa_wrap_min_key_size toyBackend .pkcs1v15 [1, 2] []
      ⟨2 ^ 2047, 65537, none⟩).2 (by simp [RSAKey.key_size, Nat.size_pow])
    simpa [toyBackend] using h

/-- Claim C4: for the AES-KW and AES-GCM-KW families, wrap and unwrap
both fail with KeySizeMismatch whenever the octet key length in bits is
not exactly the declared key size. -/
theorem C4_aes_key_size_enforcement (b : Backend) (ks : ℕ)
    (cek ek key rand : List ℕ) (headers : Headers)
    (hks : ks = 128 ∨ ks = 192 ∨ ks = 256) (h : key.length * 8 ≠ ks) :
    AESAlgorithm.wrap b ks cek headers key = .error .keySizeMismatch ∧
    AESAlgorithm.unwrap b ks ek headers key = .error .keySizeMismatch ∧
    AESGCMAlgorithm.wrap b ks cek headers key rand = .error .keySizeMismatch ∧
    AESGCMAlgorithm.unwrap b ks ek headers key = .error .keySizeMismatch := by
  refine ⟨?_, ?_, ?_, ?_⟩ <;>
    simp [AESAlgorithm.wrap, AESAlgorithm.unwrap, AESGCMAlgorithm.wrap,
      AESGCMAlgorithm.unwrap, h]

/-- Claim C4, witness: a 15-byte key presented to the 128-bit algorithms
is rejected everywhere with KeySizeMismatch. -/
theorem C4_witness :
    AESAlgorithm.wrap toyBackend 128 [1] [] (List.replicate 15 0) =
      .error .keySizeMismatch ∧
    AESAlgorithm.unwrap toyBackend 128 [2] [] (List.replicate 15 0) =
      .error .keySizeMismatch ∧
    AESGCMAlgorithm.wrap toyBackend 128 [1] [] (List.replicate 15 0) [] =
      .error .keySizeMismatch ∧
    AESGCMAlgorithm.unwrap toyBackend 128 [2] [] (List.replicate 15 0) =
      .error .keySizeMismatch :=
  C4_aes_key_size_enforcement toyBackend 128 [1] [2] (List.replicate 15 0) [] []
    (Or.inl rfl) (by decide)

/-- Claim C5: with a key of the right size, AES-GCM unwrap fails with
MissingHeaderField naming iv whenever the headers lack a nonempty iv
value, and naming tag whenever iv is present but a nonempty tag value is
lacking; the result is the same for every backend and every ek, so the
failure is decided before any decryption. -/
theorem C5_gcm_missing_header (b : Backend) (ks : ℕ) (ek key : List ℕ)
    (headers : Headers) (hkey : key.length * 8 = ks) :
    ((hget headers "iv" = none ∨ hget headers "iv" = some "") →
      AESGCMAlgorithm.unwrap b ks ek headers key =
        .error (.missingHeaderField "iv")) ∧
    (∀ ivs, hget headers "iv" = some ivs → ivs ≠ "" →
      (hget headers "tag" = none ∨ hget headers "tag" = some "") →
      AESGCMAlgorithm.unwrap b ks ek headers key =
        .error (.missingHeaderField "tag")) := by
  constructor
  · rintro (h | h) <;> simp [AESGCMAlgorithm.unwrap, hkey, h]
  · rintro ivs hiv hne (h | h) <;>
      simp [AESGCMAlgorithm.unwrap, hkey, hiv, hne, h]

/-- Claim C5, witness: no headers at all yields the iv failure; an iv
with no tag yields the tag failure, under an arbitrary concrete backend. -/
theorem C5_witness :
    AESGCMAlgorithm.unwrap toyBackend 128 [1] [] (List.replicate 16 0) =
      .error (.missingHeaderField "iv") ∧
    AESGCMAlgorithm.unwrap toyBackend 128 [1] [("iv", "AAAA")]
      (List.replicate 16 0) = .error (.missingHeaderField "tag") := by
  constructor
  · exact (C5_gcm_missing_header toyBackend 128 [1] (List.replicate 16 0) []
      (by decide)).1 (Or.inl (by decide))
  · exact (C5_gcm_missing_header toyBackend 128 [1] (List.replicate 16 0)
      [("iv", "AAAA")] (by decide)).2 "AAAA" (by decide) (by decide)
      (Or.inl (by decide))

/-- Claim C8, counterexample: the name ECDH-ES is not a key of the
algorithm registry (the ECDH entries of the source are commented out),
and resolving it fails with UnknownAlgorithm, contrary to the claim. -/
theorem C8_counterexample :
    "ECDH-ES" ∉ JWE_ALG_ALGORITHMS.map Alg.name ∧
    resolveAlgorithm "ECDH-ES" = .error .unknownAlgorithm := by
  exact ⟨by decide, by decide⟩

/-- Claim C8, amended: the registry keys are exactly the nine RSA, AES-KW
and AES-GCM-KW names, in source order; the four ECDH-ES names, although
the ECDHAlgorithm class can produce them, are not registered and resolve
to UnknownAlgorithm. -/
theorem C8_amended_registry_names :
    JWE_ALG_ALGORITHMS.map Alg.name =
      ["RSA1_5", "RSA-OAEP", "RSA-OAEP-256", "A128KW", "A192KW", "A256KW",
       "A128GCMKW", "A192GCMKW", "A256GCMKW"] ∧
    resolveAlgorithm (ECDHAlgorithm.name none) = .error .unknownAlgorithm ∧
    resolveAlgorithm (ECDHAlgorithm.name (some 128)) = .error .unknownAlgorithm ∧
    resolveAlgorithm (ECDHAlgorithm.name (some 192)) = .error .unknownAlgorithm ∧
    resolveAlgorithm (ECDHAlgorithm.name (some 256)) = .error .unknownAlgorithm := by
  exact ⟨by decide, by decide, by decide, by decide, by decide⟩

/-- Claim C9, counterexample: AES-KW wrap returns the bare wrapped bytes,
not a structure carrying an empty header mapping next to them. -/
theorem C9_counterexample :
    AlgWrap toyBackend (.aes 128) [1, 2, 3] [] (.oct (List.replicate 16 0)) [] =
      .ok (.bytes [1, 2, 3]) ∧
    AlgWrap toyBackend (.aes 128) [1, 2, 3] [] (.oct (List.replicate 16 0)) [] ≠
      .ok (.ekHeader [1, 2, 3] []) := by
  exact ⟨by decide, by decide⟩

/-- Claim C9, amended: the RSA and AES-KW variants return only the raw
wrapped key bytes, with no header mapping at all, while the AES-GCM
variants return the wrapped bytes together with a header mapping holding
the iv and tag fields. -/
theorem C9_amended_wrap_shapes :
    (∀ (b : Backend) (nm ds : String) (pad : Pad) (cek rand : List ℕ)
        (headers : Headers) (k : RSAKey), 2048 ≤ k.key_size →
      AlgWrap b (.rsa nm ds pad) cek headers (.rsa k) rand =
        .ok (.bytes (b.rsaEncrypt pad k.n k.e cek))) ∧
    (∀ (b : Backend) (ks : ℕ) (cek rand o : List ℕ) (headers : Headers),
        o.length * 8 = ks →
      AlgWrap b (.aes ks) cek headers (.oct o) rand =
        .ok (.bytes (b.aesWrap o cek))) ∧
    (∀ (b : Backend) (ks : ℕ) (cek rand o : List ℕ) (headers : Headers),
        o.length * 8 = ks →
      AlgWrap b (.aesgcm ks) cek headers (.oct o) rand =
        .ok (.ekHeader (b.gcmEncrypt o (rand.take 12) cek).1
          [("iv", urlsafe_b64encode (rand.take 12)),
           ("tag", urlsafe_b64encode (b.gcmEncrypt o (rand.take 12) cek).2)])) := by
  refine ⟨?_, ?_, ?_⟩
  · intro b nm ds pad cek rand headers k h
    rw [AlgWrap, RSAAlgorithm.wrap, if_neg (by omega)]
    rfl
  · intro b ks cek rand o headers h
    simp [AlgWrap, AESAlgorithm.wrap, h, Except.map]
  · intro b ks cek rand o headers h
    simp [AlgWrap, AESGCMAlgorithm.wrap, h, Except.map]

/-- Claim C9, witness: a concrete AES-GCM wrap call produces the ek plus
iv and tag header fields. -/
theorem C9_witness :
    AlgWrap toyBackend (.aesgcm 128) [1, 2, 3] [] (.oct (List.replicate 16 0))
      (List.replicate 12 5) =
      .ok (.ekHeader [1, 2, 3]
        [("iv", urlsafe_b64encode ((List.replicate 12 5).take 12)),
         ("tag", urlsafe_b64encode [0])]) :=
  (C9_amended_wrap_shapes.2.2 toyBackend 128 [1, 2, 3] (List.replicate 12 5)
    (List.replicate 16 0) [] (by decide)).trans (by decide)

/-- Claim C10: RSA unwrap on a private key is exactly the backend
decryption, for every key including those with a modulus under 2048
bits: it never inspects the key size and never fails with KeyTooSmall. -/
theorem C10_rsa_unwrap_no_size_check (b : Backend) (pad : Pad) (ek : List ℕ)
    (headers : Headers) (key : RSAKey) (pr : RSAPrivParts)
    (hpriv : key.priv = some pr) :
    RSAAlgorithm.unwrap b pad ek headers key =
      (match b.rsaDecrypt pad key ek with
       | some m => .ok m
       | none => .error .unwrapFailure) ∧
    RSAAlgorithm.unwrap b pad ek headers key ≠ .error .keyTooSmall := by
  constructor
  · simp [RSAAlgorithm.unwrap, hpriv]
  · cases hdec : b.rsaDecrypt pad key ek <;>
      simp [RSAAlgorithm.unwrap, hpriv, hdec]

/-- Claim C10, witness: a private key whose modulus has only 12 bits is
decrypted without any key-too-small failure. -/
theorem C10_witness :
    RSAAlgorithm.unwrap toyBackend .pkcs1v15 [9] []
      ⟨3233, 17, some ⟨2753, 61, 53, 53, 49, 38⟩⟩ = .ok [9] ∧
    RSAAlgorithm.unwrap toyBackend .pkcs1v15 [9] []
      ⟨3233, 17, some ⟨2753, 61, 53, 53, 49, 38⟩⟩ ≠ .error .keyTooSmall := by
  have h := C10_rsa_unwrap_no_size_check toyBackend .pkcs1v15 [9] []
    ⟨3233, 17, some ⟨2753, 61, 53, 53, 49, 38⟩⟩ ⟨2753, 61, 53, 53, 49, 38⟩ rfl
  exact ⟨h.1.trans (by decide), h.2⟩

/- ---------------------------------------------------------------------
Helper facts about the base64url layer and per-family roundtrip lemmas,
used by the claims about unwrap of wrap.
--------------------------------------------------------------------- -/

theorem b64_roundtrip (bs : List ℕ) (h : ∀ x ∈ bs, x < 256) :
    urlsafe_b64decode (urlsafe_b64encode bs) = some bs :=
  decB64_encB64 bs h

theorem urlsafe_b64encode_ne_empty (bs : List ℕ) (h : bs ≠ []) :
    urlsafe_b64encode bs ≠ "" := by
  match bs with
  | [] => exact absurd rfl h
  | b :: t =>
      intro hcon
      have hdata : encB64 (b :: t) = [] := congrArg String.data hcon
      exact encB64_ne_nil b t hdata

/-- RSA family: unwrap recovers the cek from wrap under the backend law. -/
theorem rsa_wrapUnwrap (b : Backend)
    (hrsa : ∀ pad k m, k.priv.isSome →
      b.rsaDecrypt pad k (b.rsaEncrypt pad k.n k.e m) = some m)
    (nm ds : String) (pad : Pad) (key : Key)
    (hk : validKeyFor (.rsa nm ds pad) key) (cek rand : List ℕ) :
    wrapUnwrap b (.rsa nm ds pad) cek key rand = .ok cek := by
  cases key with
  | rsa k =>
      obtain ⟨hsz, hpriv⟩ := hk
      obtain ⟨pr, hpr⟩ := Option.isSome_iff_exists.mp hpriv
      have hw : AlgWrap b (.rsa nm ds pad) cek [] (.rsa k) rand =
          .ok (.bytes (b.rsaEncrypt pad k.n k.e cek)) := by
        rw [AlgWrap, RSAAlgorithm.wrap, if_neg (by omega)]
        rfl
      rw [wrapUnwrap, hw]
      simp [AlgUnwrap, RSAAlgorithm.unwrap, hpr, hrsa pad k cek hpriv]
  | oct o => simp [validKeyFor] at hk
  | ec crv x y d => simp [validKeyFor] at hk

/-- AES-KW family: unwrap recovers the cek from wrap under the backend law. -/
theorem aes_wrapUnwrap (b : Backend)
    (haes : ∀ k m, b.aesUnwrap k (b.aesWrap k m) = some m)
    (ks : ℕ) (key : Key) (hk : validKeyFor (.aes ks) key) (cek rand : List ℕ) :
    wrapUnwrap b (.aes ks) cek key rand = .ok cek := by
  cases key with
  | rsa k => simp [validKeyFor] at hk
  | oct o =>
      have hko : o.length * 8 = ks := hk
      have hw : AlgWrap b (.aes ks) cek [] (.oct o) rand =
          .ok (.bytes (b.aesWrap o cek)) := by
        simp [AlgWrap, AESAlgorithm.wrap, hko, Except.map]
      rw [wrapUnwrap, hw]
      simp [AlgUnwrap, AESAlgorithm.unwrap, hko, haes o cek]
  | ec crv x y d => simp [validKeyFor] at hk

/-- AES-GCM family: unwrap recovers the cek from wrap under the backend
laws, with the produced iv and tag header fields forwarded. -/
theorem gcm_wrapUnwrap (b : Backend)
    (hgcm : ∀ k iv m,
      b.gcmDecrypt k iv (b.gcmEncrypt k iv m).2 (b.gcmEncrypt k iv m).1 = some m)
    (htagne : ∀ k iv m, (b.gcmEncrypt k iv m).2 ≠ [])
    (htaglt : ∀ k iv m, ∀ t ∈ (b.gcmEncrypt k iv m).2, t < 256)
    (ks : ℕ) (key : Key) (hk : validKeyFor (.aesgcm ks) key) (cek rand : List ℕ)
    (hr : 12 ≤ rand.length) (hrb : ∀ x ∈ rand, x < 256) :
    wrapUnwrap b (.aesgcm ks) cek key rand = .ok cek := by
  cases key with
  | rsa k => simp [validKeyFor] at hk
  | oct o =>
      have hko : o.length * 8 = ks := hk
      have hivb : ∀ x ∈ rand.take 12, x < 256 :=
        fun x hx => hrb x (List.mem_of_mem_take hx)
      have hivne : rand.take 12 ≠ [] := by
        apply List.ne_nil_of_length_pos
        rw [List.length_take]
        omega
      have hw : AlgWrap b (.aesgcm ks) cek [] (.oct o) rand =
          .ok (.ekHeader (b.gcmEncrypt o (rand.take 12) cek).1
            [("iv", urlsafe_b64encode (rand.take 12)),
             ("tag", urlsafe_b64encode (b.gcmEncrypt o (rand.take 12) cek).2)]) := by
        simp [AlgWrap, AESGCMAlgorithm.wrap, hko, Except.map]
      rw [wrapUnwrap, hw]
      simp [AlgUnwrap, AESGCMAlgorithm.unwrap, hko, hget,
        urlsafe_b64encode_ne_empty _ hivne,
        urlsafe_b64encode_ne_empty _ (htagne o (rand.take 12) cek),
        b64_roundtrip _ hivb, b64_roundtrip _ (htaglt o (rand.take 12) cek),
        hgcm o (rand.take 12) cek]
  | ec crv x y d => simp [validKeyFor] at hk

/-- Claim C2: for every registered algorithm variant, every key valid
for it, every cek of 16 to 64 bytes, and every entropy draw of at least
96 bits, unwrap applied to the output of wrap (with the produced header
fields forwarded) returns exactly the cek, given the inversion laws of
the external primitives. -/
theorem C2_wrap_unwrap_identity (b : Backend) (hb : BackendLaws b) (a : Alg)
    (ha : a ∈ JWE_ALG_ALGORITHMS) (key : Key) (hk : validKeyFor a key)
    (cek rand : List ℕ) (hc1 : 16 ≤ cek.length) (hc2 : cek.length ≤ 64)
    (hr : 12 ≤ rand.length) (hrb : ∀ x ∈ rand, x < 256) :
    wrapUnwrap b a cek key rand = .ok cek := by
  obtain ⟨hrsa, haes, hgcm, htagne, htaglt⟩ := hb
  fin_cases ha
  · exact rsa_wrapUnwrap b hrsa _ _ _ _ hk cek rand
  · exact rsa_wrapUnwrap b hrsa _ _ _ _ hk cek rand
  · exact rsa_wrapUnwrap b hrsa _ _ _ _ hk cek rand
  · exact aes_wrapUnwrap b haes _ _ hk cek rand
  · exact aes_wrapUnwrap b haes _ _ hk cek rand
  · exact aes_wrapUnwrap b haes _ _ hk cek rand
  · exact gcm_wrapUnwrap b hgcm htagne htaglt _ _ hk cek rand hr hrb
  · exact gcm_wrapUnwrap b hgcm htagne htaglt _ _ hk cek rand hr hrb
  · exact gcm_wrapUnwrap b hgcm htagne htaglt _ _ hk cek rand hr hrb

/-- Claim C2, witness: a concrete GCM roundtrip on a 16-byte cek with the
law-satisfying miniature backend. -/
theorem C2_witness :
    wrapUnwrap toyBackend (.aesgcm 128) (List.replicate 16 7)
      (.oct (List.replicate 16 0)) (List.replicate 12 3) =
      .ok (List.replicate 16 7) :=
  C2_wrap_unwrap_identity toyBackend toyBackend_laws (.aesgcm 128) (by decide)
    (.oct (List.replicate 16 0)) (by simp [validKeyFor])
    (List.replicate 16 7) (List.replicate 12 3) (by decide) (by decide)
    (by decide) (by decide)

/-- Claim C6: GCM wrap uses exactly the fresh 96-bit entropy draw of the
call as iv (the header iv field decodes back to the first 12 random
bytes), so two calls whose draws differ carry different iv values, and,
since GCM ciphertexts under a fixed key and plaintext differ across
distinct ivs (the injectivity hypothesis on the external primitive), the
two calls also produce different ek. -/
theorem C6_gcm_iv_freshness (b : Backend) (ks : ℕ)
    (key cek rand1 rand2 : List ℕ) (hkey : key.length * 8 = ks)
    (hr1 : 12 ≤ rand1.length) (hr2 : 12 ≤ rand2.length)
    (hb1 : ∀ x ∈ rand1, x < 256) (hb2 : ∀ x ∈ rand2, x < 256)
    (hne : rand1.take 12 ≠ rand2.take 12)
    (hinj : ∀ iv1 iv2, iv1 ≠ iv2 →
      (b.gcmEncrypt key iv1 cek).1 ≠ (b.gcmEncrypt key iv2 cek).1) :
    (AESGCMAlgorithm.wrap b ks cek [] key rand1).map (fun o => hget o.header "iv") =
      .ok (some (urlsafe_b64encode (rand1.take 12))) ∧
    (AESGCMAlgorithm.wrap b ks cek [] key rand2).map (fun o => hget o.header "iv") =
      .ok (some (urlsafe_b64encode (rand2.take 12))) ∧
    (rand1.take 12).length = 12 ∧ (rand2.take 12).length = 12 ∧
    urlsafe_b64encode (rand1.take 12) ≠ urlsafe_b64encode (rand2.take 12) ∧
    (AESGCMAlgorithm.wrap b ks cek [] key rand1).map GCMWrapOut.ek ≠
      (AESGCMAlgorithm.wrap b ks cek [] key rand2).map GCMWrapOut.ek := by
  have hiv1 : ∀ x ∈ rand1.take 12, x < 256 :=
    fun x hx => hb1 x (List.mem_of_mem_take hx)
  have hiv2 : ∀ x ∈ rand2.take 12, x < 256 :=
    fun x hx => hb2 x (List.mem_of_mem_take hx)
  refine ⟨?_, ?_, ?_, ?_, ?_, ?_⟩
  · simp [AESGCMAlgorithm.wrap, hkey, Except.map, hget]
  · simp [AESGCMAlgorithm.wrap, hkey, Except.map, hget]
  · rw [List.length_take]
    omega
  · rw [List.length_take]
    omega
  · intro hcon
    exact hne (urlsafe_b64encode_injOn _ _ hiv1 hiv2 hcon)
  · simp only [AESGCMAlgorithm.wrap, hkey]
    simp [Except.map]
    exact hinj _ _ hne

/-- A backend whose GCM ciphertext appends the iv to the plaintext, so
that it is injective in the iv; used to instantiate the C6 theorem. -/
def toyIvBackend : Backend :=
  { toyBackend with gcmEncrypt := fun _ iv m => (m ++ iv, [0]) }

/-- Claim C6, witness: two concrete wrap calls with distinct 12-byte
draws yield distinct encoded ivs and distinct ek values. -/
theorem C6_witness :
    urlsafe_b64encode ((List.replicate 12 0).take 12) ≠
      urlsafe_b64encode ((List.replicate 12 1).take 12) ∧
    (AESGCMAlgorithm.wrap toyIvBackend 128 [7] [] (List.replicate 16 0)
        (List.replicate 12 0)).map GCMWrapOut.ek ≠
      (AESGCMAlgorithm.wrap toyIvBackend 128 [7] [] (List.replicate 16 0)
        (List.replicate 12 1)).map GCMWrapOut.ek := by
  have h := C6_gcm_iv_freshness toyIvBackend 128 (List.replicate 16 0) [7]
    (List.replicate 12 0) (List.replicate 12 1) (by decide) (by decide)
    (by decide) (by decide) (by decide) (by decide)
    (by
      intro iv1 iv2 hne hcon
      exact hne (List.append_cancel_left hcon))
  exact ⟨h.2.2.2.2.1, h.2.2.2.2.2⟩

/-- Claim C7: when the GCM backend rejects the presented iv, tag and ek
(as it does when any bit of ek or tag is flipped), unwrap fails with
UnwrapFailure; and any successful unwrap returns exactly the cek the
backend authenticated, so a wrong cek is never returned silently; the
same two facts for the deterministic AES key wrap. -/
theorem C7_tamper_detection :
    (∀ (b : Backend) (ks : ℕ) (key ek : List ℕ) (headers : Headers)
        (ivs tgs : String) (iv tag : List ℕ),
      key.length * 8 = ks →
      hget headers "iv" = some ivs → ivs ≠ "" →
      hget headers "tag" = some tgs → tgs ≠ "" →
      urlsafe_b64decode ivs = some iv → urlsafe_b64decode tgs = some tag →
      b.gcmDecrypt key iv tag ek = none →
      AESGCMAlgorithm.unwrap b ks ek headers key = .error .unwrapFailure) ∧
    (∀ (b : Backend) (ks : ℕ) (key ek cek : List ℕ) (headers : Headers),
      AESGCMAlgorithm.unwrap b ks ek headers key = .ok cek →
      ∃ ivs tgs iv tag, hget headers "iv" = some ivs ∧
        hget headers "tag" = some tgs ∧
        urlsafe_b64decode ivs = some iv ∧ urlsafe_b64decode tgs = some tag ∧
        b.gcmDecrypt key iv tag ek = some cek) ∧
    (∀ (b : Backend) (ks : ℕ) (key ek : List ℕ) (headers : Headers),
      key.length * 8 = ks → b.aesUnwrap key ek = none →
      AESAlgorithm.unwrap b ks ek headers key = .error .unwrapFailure) ∧
    (∀ (b : Backend) (ks : ℕ) (key ek cek : List ℕ) (headers : Headers),
      AESAlgorithm.unwrap b ks ek headers key = .ok cek →
      b.aesUnwrap key ek = some cek) := by
  refine ⟨?_, ?_, ?_, ?_⟩
  · intro b ks key ek headers ivs tgs iv tag hkey hiv hne htag htne hdiv hdtag hdec
    simp [AESGCMAlgorithm.unwrap, hkey, hiv, hne, htag, htne, hdiv, hdtag, hdec]
  · intro b ks key ek cek headers h
    by_cases hkey : key.length * 8 ≠ ks
    · simp [AESGCMAlgorithm.unwrap, hkey] at h
    · rw [AESGCMAlgorithm.unwrap, if_neg hkey] at h
      cases hiv : hget headers "iv" with
      | none => simp [hiv] at h
      | some ivs =>
          simp only [hiv] at h
          by_cases hne : ivs = ""
          · simp [hne] at h
          · simp only [if_neg hne] at h
            cases htag : hget headers "tag" with
            | none => simp [htag] at h
            | some tgs =>
                simp only [htag] at h
                by_cases htne : tgs = ""
                · simp [htne] at h
                · simp only [if_neg htne] at h
                  cases hdiv : urlsafe_b64decode ivs with
                  | none => simp [hdiv] at h
                  | some iv =>
                      simp only [hdiv] at h
                      cases hdtag : urlsafe_b64decode tgs with
                      | none => simp [hdtag] at h
                      | some tag =>
                          simp only [hdtag] at h
                          cases hdec : b.gcmDecrypt key iv tag ek with
                          | none => simp [hdec] at h
                          | some cek2 =>
                              simp only [hdec] at h
                              obtain rfl : cek2 = cek := by simpa using h
                              exact ⟨ivs, tgs, iv, tag, rfl, rfl, hdiv, hdtag, hdec⟩
  · intro b ks key ek headers hkey hdec
    simp [AESAlgorithm.unwrap, hkey, hdec]
  · intro b ks key ek cek headers h
    by_cases hkey : key.length * 8 ≠ ks
    · simp [AESAlgorithm.unwrap, hkey] at h
    · rw [AESAlgorithm.unwrap, if_neg hkey] at h
      cases hdec : b.aesUnwrap key ek with
      | none => simp [hdec] at h
      | some cek2 =>
          simp only [hdec] at h
          obtain rfl : cek2 = cek := by simpa using h
          rfl

/-- A backend whose decrypt capabilities reject every input, standing
for the integrity checks failing on tampered data; used to instantiate
the C7 theorem. -/
def toyTamperBackend : Backend :=
  { toyBackend with gcmDecrypt := fun _ _ _ _ => none,
                    aesUnwrap := fun _ _ => none }

/-- Claim C7, witness: with a rejecting backend, GCM unwrap on complete
headers and AES-KW unwrap both fail with UnwrapFailure. -/
theorem C7_witness :
    AESGCMAlgorithm.unwrap toyTamperBackend 128 [5]
      [("iv", "AAAA"), ("tag", "AAAA")] (List.replicate 16 0) =
      .error .unwrapFailure ∧
    AESAlgorithm.unwrap toyTamperBackend 128 [5] [] (List.replicate 16 0) =
      .error .unwrapFailure := by
  constructor
  · exact C7_tamper_detection.1 toyTamperBackend 128 (List.replicate 16 0) [5]
      [("iv", "AAAA"), ("tag", "AAAA")] "AAAA" "AAAA" [0, 0, 0] [0, 0, 0]
      (by decide) (by decide) (by decide) (by decide) (by decide) (by decide)
      (by decide) rfl
  · exact C7_tamper_detection.2.2.1 toyTamperBackend 128 (List.replicate 16 0)
      [5] [] (by decide) rfl
